import Mathlib

/-!
Shallow embedding of the evaluation harness of this repository:
`evaluation/test_loader.py`, `evaluation/mcp_tableau_client.py` and
`evaluation/run_limited_evaluation.py`.  Wall-clock fields
(`execution_time`, `timestamp`) and logging calls are elided.  The
OpenAI/MCP agent invocation is abstracted as a `RunnerOutcome` value
(what `asyncio.wait_for(Runner.run ...)` did on one case), and Python's
stdlib `json.loads` is modelled by a small concrete JSON parser.
All line numbers in doc comments refer to the named source file.
-/

namespace TableauMCP

/-- Left curly-brace character, named so the scanner code stays readable. -/
def lbrace : Char := Char.ofNat 123

/-- Right curly-brace character. -/
def rbrace : Char := Char.ofNat 125

/-! Data model of `test_loader.py`. -/

/-- One raw record of the bird-mini corpus file (the fields the loader reads). -/
structure Item where
  question_id : Int
  db_id : String
  question : String
  evidence : Option String
  sql : String
  difficulty : String
deriving DecidableEq

/-- TestCase dataclass (`test_loader.py` lines 13-32). -/
structure TestCase where
  question_id : Int
  db_id : String
  question : String
  evidence : String
  sql : String
  difficulty : String
deriving DecidableEq

/-- Construction of a TestCase from a raw record (`test_loader.py` lines 103-110;
`item.get("evidence", "")` defaults a missing evidence field to the empty string). -/
def itemToTestCase (it : Item) : TestCase :=
  { question_id := it.question_id, db_id := it.db_id, question := it.question,
    evidence := it.evidence.getD "", sql := it.sql, difficulty := it.difficulty }

/-- SUPPORTED_DATABASES set (`test_loader.py` line 38), as a list in a fixed
enumeration order (the Python value is a set with no canonical order). -/
def SUPPORTED_DATABASES : List String := ["california_schools", "card_games", "financial"]

/-- Errors raised by load_test_cases (both are `ValueError`s in the source:
lines 77 and 118). -/
inductive LoadError where
  | invalidDatasets (invalid : List String)
  | noTestCases
deriving DecidableEq

/-- Python `databases or list(self.SUPPORTED_DATABASES)` (`test_loader.py` line 72):
both `None` and the empty list are falsy and fall back to the supported set. -/
def effectiveDatabases : Option (List String) → List String
  | none => SUPPORTED_DATABASES
  | some [] => SUPPORTED_DATABASES
  | some (d :: ds) => d :: ds

/-- Requested names outside the supported set (`test_loader.py` line 75,
`set(databases) - self.SUPPORTED_DATABASES`; modelled as a filtered list). -/
def invalid_requested (dbs : List String) : List String :=
  dbs.filter (fun d => decide (¬ d ∈ SUPPORTED_DATABASES))

/-- Record filter of `test_loader.py` lines 96-101: dataset membership first, then the
difficulty filter; an empty (falsy) difficulty list disables difficulty filtering. -/
def matchesFilters (dbs : List String) (df : Option (List String)) (it : Item) : Bool :=
  decide (it.db_id ∈ dbs) &&
    (match df with
     | none => true
     | some [] => true
     | some (d :: ds) => decide (it.difficulty ∈ d :: ds))

/-- First existing corpus file among the candidates (`test_loader.py` lines 80-115:
the loop breaks after the first file that exists). -/
def firstFile : List (Option (List Item)) → Option (List Item)
  | [] => none
  | some f :: _ => some f
  | none :: rest => firstFile rest

/-- Records of the chosen corpus file that pass the filters, converted to test cases,
in file order (`test_loader.py` lines 96-112). -/
def matchedCases (fs : List (Option (List Item))) (dbs : List String)
    (df : Option (List String)) : List TestCase :=
  (((firstFile fs).getD []).filter (matchesFilters dbs df)).map itemToTestCase

/-- Per-database truncation loop of `test_loader.py` lines 122-127: for each requested
database in request order, keep the first `l` matching cases. -/
def applyLimit (dbs : List String) (l : Nat) (matched : List TestCase) : List TestCase :=
  match dbs with
  | [] => []
  | d :: rest =>
      (matched.filter (fun tc => decide (tc.db_id = d))).take l ++ applyLimit rest l matched

/-- Line 121 `if limit:`: both `None` and `0` are falsy, so only a positive limit
truncates. -/
def applyLimitOpt (dbs : List String) (limit : Option Nat) (matched : List TestCase) :
    List TestCase :=
  match limit with
  | none => matched
  | some l => if l = 0 then matched else applyLimit dbs l matched

/-- BirdMiniTestLoader.load_test_cases (`test_loader.py` lines 57-131).  The filesystem
is passed in as the contents of the candidate corpus files in priority order
(`none` meaning the file does not exist).  Validation happens before the files are
consulted, the emptiness check before the limit is applied. -/
def load_test_cases (fs : List (Option (List Item))) (databases : Option (List String))
    (difficulty_filter : Option (List String)) (limit : Option Nat) :
    Except LoadError (List TestCase) :=
  let dbs := effectiveDatabases databases
  if invalid_requested dbs ≠ [] then
    Except.error (LoadError.invalidDatasets (invalid_requested dbs))
  else
    let matched := matchedCases fs dbs difficulty_filter
    if matched = [] then Except.error LoadError.noTestCases
    else Except.ok (applyLimitOpt dbs limit matched)

/-- datasource_mapping (`test_loader.py` lines 51-55). -/
def datasource_mapping : List (String × String) :=
  [("california_schools", "california_schools"), ("card_games", "card_games"),
    ("financial", "financial")]

/-- BirdMiniTestLoader.get_tableau_datasource_name (`test_loader.py` lines 151-161):
dictionary lookup defaulting to the identity. -/
def get_tableau_datasource_name (db_id : String) : String :=
  match datasource_mapping.find? (fun p => decide (p.1 = db_id)) with
  | some p => p.2
  | none => db_id

/-! Payload extraction of `mcp_tableau_client.py`. -/

/-- Payload marker token (`mcp_tableau_client.py` line 141). -/
def MARKER : List Char := String.toList "VDS_QUERY:"

/-- Whitespace characters removed by Python `str.strip()`. -/
def pySpace (c : Char) : Bool :=
  c = ' ' || c = '\t' || c = '\n' || c = '\r' || c = '\x0b' || c = '\x0c'

/-- Python `str.strip()`. -/
def pyStrip (s : List Char) : List Char :=
  ((s.dropWhile pySpace).reverse.dropWhile pySpace).reverse

/-- Truth of "needle is a prefix of hay". -/
def startsWithList : List Char → List Char → Bool
  | [], _ => true
  | _ :: _, [] => false
  | a :: na, b :: nb => a = b && startsWithList na nb

/-- Index of the first occurrence of `needle` in the list (Python `str.find`,
restricted to the found case). -/
def findSub (needle : List Char) : List Char → Option Nat
  | [] => if needle = [] then some 0 else none
  | c :: rest =>
    if startsWithList needle (c :: rest) then some 0
    else (findSub needle rest).map (fun n => n + 1)

/-- Brace-nesting depth of a string: occurrences of the opening brace minus
occurrences of the closing one. -/
def braceDepth : List Char → Int
  | [] => 0
  | c :: rest => (if c = lbrace then 1 else if c = rbrace then -1 else 0) + braceDepth rest

/-- Brace scan of `mcp_tableau_client.py` lines 148-158: `i` is the index of the next
character and `d` the running `brace_count`; the result is `end_pos` (`some`) or
`none` when the loop ends without the depth returning to zero (`end_pos` stays 0). -/
def scanEndPos : List Char → Nat → Int → Option Nat
  | [], _, _ => none
  | c :: rest, i, d =>
    if c = lbrace then scanEndPos rest (i + 1) (d + 1)
    else if c = rbrace then
      (if d - 1 = 0 then some (i + 1) else scanEndPos rest (i + 1) (d - 1))
    else scanEndPos rest (i + 1) d

/-- Stripped text after the payload marker (`mcp_tableau_client.py` lines 144-145),
when the marker occurs in the answer text. -/
def vdsSection (out : List Char) : Option (List Char) :=
  match findSub MARKER out with
  | none => none
  | some i => some (pyStrip (out.drop (i + MARKER.length)))

/-- Substring handed to `json.loads` (`mcp_tableau_client.py` lines 141-161): present
only when the marker occurs, the stripped tail starts with an opening brace, and the
depth scan finds a balance point. -/
def extract_vds_section (out : List Char) : Option (List Char) :=
  match vdsSection out with
  | none => none
  | some sec =>
    if sec.head? = some lbrace then
      match scanEndPos sec 0 0 with
      | some e => some (sec.take e)
      | none => none
    else none

/-! Model of the stdlib `json.loads` collaborator. -/

/-- Minimal JSON value model. -/
inductive Json where
  | null
  | bool (b : Bool)
  | num (n : Int)
  | str (s : String)
  | arr (xs : List Json)
  | obj (kvs : List (String × Json))

/-- JSON whitespace. -/
def jsonWs (c : Char) : Bool := c = ' ' || c = '\t' || c = '\n' || c = '\r'

/-- Unescaping of the basic escape sequences. -/
def unescapeChar (c : Char) : Char :=
  if c = 'n' then '\n' else if c = 't' then '\t' else if c = 'r' then '\r' else c

/-- String-body scanner: the characters up to the closing quote, handling escapes. -/
def parseStringChars : List Char → Except String (List Char × List Char)
  | [] => Except.error "Unterminated string"
  | c :: rest =>
    if c = '\"' then Except.ok ([], rest)
    else if c = '\\' then
      match rest with
      | [] => Except.error "Unterminated string"
      | e :: rest2 =>
        match parseStringChars rest2 with
        | Except.error msg => Except.error msg
        | Except.ok p => Except.ok (unescapeChar e :: p.1, p.2)
    else
      match parseStringChars rest with
      | Except.error msg => Except.error msg
      | Except.ok p => Except.ok (c :: p.1, p.2)

/-- Digit scanner with accumulator. -/
def parseDigits : List Char → Nat → Nat × List Char
  | [], acc => (acc, [])
  | c :: rest, acc =>
    if c.isDigit then parseDigits rest (acc * 10 + (c.toNat - 48)) else (acc, c :: rest)

mutual

/-- Recursive-descent JSON value parser, fuelled to make termination structural. -/
def parseValue : Nat → List Char → Except String (Json × List Char)
  | 0, _ => Except.error "Too deeply nested"
  | fuel + 1, s =>
    match s.dropWhile jsonWs with
    | [] => Except.error "Expecting value"
    | c :: rest =>
      if c = lbrace then
        match rest.dropWhile jsonWs with
        | [] => Except.error "Expecting property name enclosed in double quotes"
        | d :: rest2 =>
          if d = rbrace then Except.ok (Json.obj [], rest2)
          else
            match parseMembers fuel (d :: rest2) with
            | Except.error msg => Except.error msg
            | Except.ok mp => Except.ok (Json.obj mp.1, mp.2)
      else if c = '[' then
        match rest.dropWhile jsonWs with
        | [] => Except.error "Expecting value"
        | d :: rest2 =>
          if d = ']' then Except.ok (Json.arr [], rest2)
          else
            match parseElements fuel (d :: rest2) with
            | Except.error msg => Except.error msg
            | Except.ok ep => Except.ok (Json.arr ep.1, ep.2)
      else if c = '\"' then
        match parseStringChars rest with
        | Except.error msg => Except.error msg
        | Except.ok p => Except.ok (Json.str (String.mk p.1), p.2)
      else if c = 't' then
        if startsWithList (String.toList "rue") rest then Except.ok (Json.bool true, rest.drop 3)
        else Except.error "Expecting value"
      else if c = 'f' then
        if startsWithList (String.toList "alse") rest then Except.ok (Json.bool false, rest.drop 4)
        else Except.error "Expecting value"
      else if c = 'n' then
        if startsWithList (String.toList "ull") rest then Except.ok (Json.null, rest.drop 3)
        else Except.error "Expecting value"
      else if c = '-' then
        match rest with
        | [] => Except.error "Expecting value"
        | d :: _ =>
          if d.isDigit then
            let p := parseDigits rest 0
            Except.ok (Json.num (-(p.1 : Int)), p.2)
          else Except.error "Expecting value"
      else if c.isDigit then
        let p := parseDigits (c :: rest) 0
        Except.ok (Json.num (p.1 : Int), p.2)
      else Except.error "Expecting value"

/-- Object-member list parser: positioned at a property name. -/
def parseMembers : Nat → List Char → Except String (List (String × Json) × List Char)
  | 0, _ => Except.error "Too deeply nested"
  | fuel + 1, s =>
    match s.dropWhile jsonWs with
    | c :: rest =>
      if c = '\"' then
        match parseStringChars rest with
        | Except.error msg => Except.error msg
        | Except.ok kp =>
          match kp.2.dropWhile jsonWs with
          | ':' :: rest3 =>
            match parseValue fuel rest3 with
            | Except.error msg => Except.error msg
            | Except.ok vp =>
              match vp.2.dropWhile jsonWs with
              | ',' :: rest5 =>
                match parseMembers fuel rest5 with
                | Except.error msg => Except.error msg
                | Except.ok mp => Except.ok ((String.mk kp.1, vp.1) :: mp.1, mp.2)
              | d :: rest5 =>
                if d = rbrace then Except.ok ([(String.mk kp.1, vp.1)], rest5)
                else Except.error "Expecting comma delimiter"
              | [] => Except.error "Expecting comma delimiter"
          | _ => Except.error "Expecting colon delimiter"
      else Except.error "Expecting property name enclosed in double quotes"
    | [] => Except.error "Expecting property name enclosed in double quotes"

/-- Array-element list parser: positioned at a value. -/
def parseElements : Nat → List Char → Except String (List Json × List Char)
  | 0, _ => Except.error "Too deeply nested"
  | fuel + 1, s =>
    match parseValue fuel s with
    | Except.error msg => Except.error msg
    | Except.ok vp =>
      match vp.2.dropWhile jsonWs with
      | ',' :: rest2 =>
        match parseElements fuel rest2 with
        | Except.error msg => Except.error msg
        | Except.ok ep => Except.ok (vp.1 :: ep.1, ep.2)
      | ']' :: rest2 => Except.ok ([vp.1], rest2)
      | _ => Except.error "Expecting comma delimiter"

end

/-- Model of Python `json.loads`: parse one value and require only whitespace after it. -/
def json_loads (s : List Char) : Except String Json :=
  match parseValue (s.length + 1) s with
  | Except.error e => Except.error e
  | Except.ok p => if p.2.dropWhile jsonWs = [] then Except.ok p.1 else Except.error "Extra data"

/-! Client model (`mcp_tableau_client.py` lines 50-171). -/

/-- Value of the `vds_query` result key: absent (`None`), a parsed object, or the
parse-error string built at line 165. -/
inductive VdsQuery where
  | noneV
  | json (j : Json)
  | text (s : String)

/-- Result dictionary built by query_datasource (`mcp_tableau_client.py` lines 90-98). -/
structure ResultData where
  datasource : String
  query : String
  trace_id : String
  success : Bool
  data : Option String
  error : Option String
  vds_query : VdsQuery

/-- Outcome of `asyncio.wait_for(Runner.run ...)` as seen by query_datasource's `try`
block: completion with a final output, a timeout, or any other raised exception
(including faults while starting the MCP subprocess). -/
inductive RunnerOutcome where
  | completed (final_output : Option String)
  | timeout
  | raised (msg : String)

/-- Timeout error message of `mcp_tableau_client.py` line 167. -/
def TIMEOUT_MSG : String := "Query timed out after 60 seconds"

/-- Computation of the `vds_query` field (`mcp_tableau_client.py` lines 141-165): the
inner `try` catches exactly the parse failures, storing a "Parse error" string. -/
def compute_vds_query (final_output : Option String) : VdsQuery :=
  match final_output with
  | none => VdsQuery.noneV
  | some out =>
    if out.isEmpty then VdsQuery.noneV
    else
      match extract_vds_section out.toList with
      | none => VdsQuery.noneV
      | some sub =>
        match json_loads sub with
        | Except.ok j => VdsQuery.json j
        | Except.error e => VdsQuery.text ("Parse error: " ++ e)

/-- TableauMCPClient.query_datasource (`mcp_tableau_client.py` lines 50-171).  The
`except` handlers at lines 166-169 catch every fault, so this is a total function:
every runner outcome yields a complete result record. -/
def query_datasource (datasource_name natural_language_query trace_id : String)
    (outcome : RunnerOutcome) : ResultData :=
  let base : ResultData :=
    { datasource := datasource_name, query := natural_language_query, trace_id := trace_id,
      success := false, data := none, error := none, vds_query := VdsQuery.noneV }
  match outcome with
  | RunnerOutcome.timeout => { base with error := some TIMEOUT_MSG }
  | RunnerOutcome.raised msg => { base with error := some msg }
  | RunnerOutcome.completed fo =>
      { base with success := true, data := fo, vds_query := compute_vds_query fo }

/-! Orchestrator model (`run_limited_evaluation.py`). -/

/-- Per-test result dictionary of run_single_test (`run_limited_evaluation.py` lines
83-104); wall-clock fields elided.  The exception path (lines 93-104) produces a
dictionary without a `vds_query` key, modelled as `VdsQuery.noneV`. -/
structure TestResult where
  test_case : TestCase
  mcp_result : Option ResultData
  status : String
  error : Option String
  vds_query : VdsQuery

/-- TableauMCPEvaluator.run_single_test (`run_limited_evaluation.py` lines 49-106).
The awaited client call is passed in as an `Except`: `ok` is a returned result
dictionary, `error` an exception escaping the call. -/
def run_single_test (tc : TestCase) (call : Except String ResultData) : TestResult :=
  match call with
  | Except.ok mcp_result =>
    { test_case := tc, mcp_result := some mcp_result,
      status := if mcp_result.success then "success" else "failed",
      error := mcp_result.error, vds_query := mcp_result.vds_query }
  | Except.error e =>
    { test_case := tc, mcp_result := none, status := "error", error := some e,
      vds_query := VdsQuery.noneV }

/-- Per-case step as composed in the program: query_datasource is total, so the awaited
call always returns a result dictionary (`Except.ok`). -/
def run_case (outcome : RunnerOutcome) (trace_id : String) (tc : TestCase) : TestResult :=
  run_single_test tc (Except.ok (query_datasource (get_tableau_datasource_name tc.db_id)
    tc.question trace_id outcome))

/-- Loop of run_evaluation (`run_limited_evaluation.py` lines 138-151); `behavior`
gives each case's runner outcome and `traceOf` its generated trace id, by position. -/
def run_cases (behavior : Nat → TestCase → RunnerOutcome) (traceOf : Nat → String) :
    Nat → List TestCase → List TestResult
  | _, [] => []
  | i, tc :: rest =>
      run_case (behavior i tc) (traceOf i) tc :: run_cases behavior traceOf (i + 1) rest

/-- Outcome log of a whole run (`run_limited_evaluation.py` lines 138-151). -/
def run_evaluation (behavior : Nat → TestCase → RunnerOutcome) (traceOf : Nat → String)
    (cases : List TestCase) : List TestResult :=
  run_cases behavior traceOf 0 cases

/-- Run loop with `save_intermediate=True` (`run_limited_evaluation.py` lines 146-148):
besides the final log, returns in order the contents written to the fixed
latest-results file by each per-case save_results call (each a complete overwrite
with the current log, lines 196-209). -/
def run_with_saves (behavior : Nat → TestCase → RunnerOutcome) (traceOf : Nat → String) :
    Nat → List TestResult → List TestCase → List TestResult × List (List TestResult)
  | _, acc, [] => (acc, [])
  | i, acc, tc :: rest =>
    let r := run_case (behavior i tc) (traceOf i) tc
    let next := run_with_saves behavior traceOf (i + 1) (acc ++ [r]) rest
    (next.1, (acc ++ [r]) :: next.2)

/-- Per-database counters of generate_summary (`run_limited_evaluation.py` lines
170-177). -/
structure DbStats where
  total : Nat
  success : Nat
  failed : Nat
  error : Nat
deriving DecidableEq

/-- Increment of lines 176-177: `total` always, then the bucket named by the status.
The final catch-all arm is unreachable for program-produced logs (Python would raise
`KeyError` there). -/
def bump_db (st : DbStats) (status : String) : DbStats :=
  let st1 : DbStats := { st with total := st.total + 1 }
  if status = "success" then { st1 with success := st1.success + 1 }
  else if status = "failed" then { st1 with failed := st1.failed + 1 }
  else if status = "error" then { st1 with error := st1.error + 1 }
  else st1

/-- Insertion-ordered dictionary update for `by_database`. -/
def update_assoc : List (String × DbStats) → String → String → List (String × DbStats)
  | [], db, status => [(db, bump_db ⟨0, 0, 0, 0⟩ status)]
  | (k, v) :: rest, db, status =>
    if k = db then (k, bump_db v status) :: rest
    else (k, v) :: update_assoc rest db status

/-- RunSummary (`run_limited_evaluation.py` lines 183-192); `average_execution_time`
and `timestamp` (wall clock) are elided; the float `success_rate` is modelled as a
rational. -/
structure RunSummary where
  total_tests : Nat
  successful : Nat
  failed : Nat
  errors : Nat
  success_rate : Rat
  by_database : List (String × DbStats)

/-- TableauMCPEvaluator.generate_summary (`run_limited_evaluation.py` lines 162-194). -/
def generate_summary (results : List TestResult) : RunSummary :=
  { total_tests := results.length,
    successful := (results.filter (fun r => decide (r.status = "success"))).length,
    failed := (results.filter (fun r => decide (r.status = "failed"))).length,
    errors := (results.filter (fun r => decide (r.status = "error"))).length,
    success_rate :=
      if 0 < results.length then
        ((results.filter (fun r => decide (r.status = "success"))).length : Rat) /
          (results.length : Rat)
      else 0,
    by_database := results.foldl (fun m r => update_assoc m r.test_case.db_id r.status) [] }

/-! Concrete fixtures used by the witnesses and counterexamples below. -/

/-- Demo corpus record. -/
def demoItemA1 : Item :=
  { question_id := 1, db_id := "california_schools", question := "qa1", evidence := none,
    sql := "SELECT 1", difficulty := "simple" }

/-- Demo corpus record. -/
def demoItemB1 : Item :=
  { question_id := 2, db_id := "card_games", question := "qb1", evidence := some "ev",
    sql := "SELECT 2", difficulty := "simple" }

/-- Demo corpus record. -/
def demoItemA2 : Item :=
  { question_id := 3, db_id := "california_schools", question := "qa2", evidence := none,
    sql := "SELECT 3", difficulty := "moderate" }

/-- Demo corpus record. -/
def demoItemB2 : Item :=
  { question_id := 4, db_id := "card_games", question := "qb2", evidence := none,
    sql := "SELECT 4", difficulty := "simple" }

/-- Demo filesystem: only the first candidate corpus file exists; its records
interleave the two datasets. -/
def demoFs : List (Option (List Item)) :=
  [some [demoItemA1, demoItemB1, demoItemA2, demoItemB2], none, none]

/-- Demo test case. -/
def demoCaseA1 : TestCase := itemToTestCase demoItemA1

/-- Demo test case. -/
def demoCaseB1 : TestCase := itemToTestCase demoItemB1

/-- Demo test case. -/
def demoCaseA2 : TestCase := itemToTestCase demoItemA2

/-- Demo test case. -/
def demoCaseB2 : TestCase := itemToTestCase demoItemB2

/-- Behavior in which every invocation times out. -/
def demoTimeoutBehavior : Nat → TestCase → RunnerOutcome := fun _ _ => RunnerOutcome.timeout

/-- Behavior in which only the first invocation times out. -/
def demoMixedBehavior : Nat → TestCase → RunnerOutcome :=
  fun i _ => if i = 0 then RunnerOutcome.timeout else RunnerOutcome.completed (some "ok")

/-- Fixed demo trace-id generator. -/
def demoTraceOf : Nat → String := fun _ => "trace_demo"

/-- Answer text with a nested-JSON payload after the marker. -/
def NESTED_OUTPUT : String := "Answer. VDS_QUERY: \x7b\"a\": \x7b\"b\": 1\x7d\x7d trailing"

/-- Exact balanced payload substring embedded in `NESTED_OUTPUT`. -/
def NESTED_PAYLOAD : String := "\x7b\"a\": \x7b\"b\": 1\x7d\x7d"

/-- Answer text with the marker but no opening brace after it. -/
def NOBRACE_OUTPUT : String := "VDS_QUERY: none returned"

/-- Answer text with an unbalanced brace after the marker. -/
def UNBALANCED_OUTPUT : String := "VDS_QUERY: \x7b\"a\": 1 trailing"

/-- Answer text whose balanced payload substring is not valid JSON. -/
def BADJSON_OUTPUT : String := "VDS_QUERY: \x7b bad \x7d"

/-- Balanced but unparsable payload substring embedded in `BADJSON_OUTPUT`. -/
def BADJSON_PAYLOAD : String := "\x7b bad \x7d"

/-- Demo outcome-log entry with status success. -/
def demoResultS : TestResult :=
  { test_case := demoCaseA1, mcp_result := none, status := "success", error := none,
    vds_query := VdsQuery.noneV }

/-- Demo outcome-log entry with status failed. -/
def demoResultF : TestResult :=
  { test_case := demoCaseB1, mcp_result := none, status := "failed", error := some "x",
    vds_query := VdsQuery.noneV }

/-- Demo outcome-log entry with status error. -/
def demoResultE : TestResult :=
  { test_case := demoCaseA1, mcp_result := none, status := "error", error := some "boom",
    vds_query := VdsQuery.noneV }

/-- Demo outcome log. -/
def demoLog : List TestResult := [demoResultS, demoResultF, demoResultE]

/-! Helper lemmas. -/

/-- With a non-empty explicit request, the effective database list is the request. -/
theorem effectiveDatabases_some (ds : List String) (h : ds ≠ []) :
    effectiveDatabases (some ds) = ds := by
  cases ds with
  | nil => exact absurd rfl h
  | cons a rest => rfl

/-- The per-case step records the processed test case unchanged. -/
theorem run_case_test_case (o : RunnerOutcome) (tr : String) (tc : TestCase) :
    (run_case o tr tc).test_case = tc := rfl

/-- The run log records the test cases in corpus order. -/
theorem run_cases_map_test_case (b : Nat → TestCase → RunnerOutcome) (t : Nat → String) :
    ∀ (cs : List TestCase) (i : Nat),
      (run_cases b t i cs).map (fun r => r.test_case) = cs := by
  intro cs
  induction cs with
  | nil => intro i; rfl
  | cons c rest ih =>
      intro i
      simp only [run_cases, List.map_cons, run_case_test_case, ih (i + 1)]

/-- The run log has one entry per test case. -/
theorem run_cases_length (b : Nat → TestCase → RunnerOutcome) (t : Nat → String) :
    ∀ (cs : List TestCase) (i : Nat), (run_cases b t i cs).length = cs.length := by
  intro cs
  induction cs with
  | nil => intro i; rfl
  | cons c rest ih => intro i; simp [run_cases, ih (i + 1)]

/-- Positional description of the run log entries. -/
theorem run_cases_getElem (b : Nat → TestCase → RunnerOutcome) (t : Nat → String) :
    ∀ (cs : List TestCase) (i j : Nat) (tc : TestCase), cs[i]? = some tc →
      (run_cases b t j cs)[i]? = some (run_case (b (j + i) tc) (t (j + i)) tc) := by
  intro cs
  induction cs with
  | nil => intro i j tc h; simp at h
  | cons c rest ih =>
      intro i j tc h
      cases i with
      | zero =>
          simp only [List.getElem?_cons_zero, Option.some.injEq] at h
          subst h
          simp [run_cases]
      | succ n =>
          have h' : rest[n]? = some tc := by simpa using h
          have hrec := ih n (j + 1) tc h'
          have harith : j + 1 + n = j + (n + 1) := by omega
          rw [harith] at hrec
          simpa [run_cases] using hrec

/-- Unrolled description of the saving run loop. -/
theorem run_with_saves_spec (b : Nat → TestCase → RunnerOutcome) (t : Nat → String) :
    ∀ (cs : List TestCase) (i : Nat) (acc : List TestResult),
      (run_with_saves b t i acc cs).1 = acc ++ run_cases b t i cs ∧
      (run_with_saves b t i acc cs).2.length = cs.length ∧
      ∀ k, k < cs.length →
        (run_with_saves b t i acc cs).2[k]? =
          some (acc ++ (run_cases b t i cs).take (k + 1)) := by
  intro cs
  induction cs with
  | nil =>
      intro i acc
      refine ⟨by simp [run_with_saves, run_cases], by simp [run_with_saves], ?_⟩
      intro k hk
      exact absurd hk (Nat.not_lt_zero k)
  | cons c rest ih =>
      intro i acc
      obtain ⟨ih1, ih2, ih3⟩ := ih (i + 1) (acc ++ [run_case (b i c) (t i) c])
      refine ⟨?_, ?_, ?_⟩
      · simp only [run_with_saves]
        rw [ih1]
        simp [run_cases, List.append_assoc]
      · simp only [run_with_saves, List.length_cons]
        rw [ih2]
      · intro k hk
        cases k with
        | zero =>
            simp [run_with_saves, run_cases]
        | succ n =>
            have hn : n < rest.length := by simpa using hk
            have hrec := ih3 n hn
            simp only [run_with_saves, List.getElem?_cons_succ]
            rw [hrec]
            simp [run_cases, List.append_assoc, List.take_succ_cons]

/-! Claim C4: invalid dataset identifiers fail the load before any file access. -/

/-- C4: if any requested dataset identifier is outside the supported set, load fails
with the invalid-dataset error, for every filesystem content (so before any file is
consulted) and regardless of the other filters. -/
theorem C4_invalid_dataset_fails_before_io
    (fs : List (Option (List Item))) (ds : List String) (df : Option (List String))
    (limit : Option Nat) (d : String) (hmem : d ∈ ds) (hbad : d ∉ SUPPORTED_DATABASES) :
    load_test_cases fs (some ds) df limit =
      Except.error (LoadError.invalidDatasets (invalid_requested ds)) := by
  have hne : ds ≠ [] := List.ne_nil_of_mem hmem
  have heff : effectiveDatabases (some ds) = ds := effectiveDatabases_some ds hne
  have hd : d ∈ invalid_requested ds := by
    unfold invalid_requested
    refine List.mem_filter.mpr ⟨hmem, ?_⟩
    simpa using hbad
  have hinv : invalid_requested ds ≠ [] := List.ne_nil_of_mem hd
  simp only [load_test_cases, heff]
  rw [if_pos hinv]

/-- Witness for C4 at a concrete bogus request. -/
theorem C4_invalid_dataset_witness :
    load_test_cases demoFs (some ["bogus_db", "card_games"]) none none =
      Except.error (LoadError.invalidDatasets (invalid_requested ["bogus_db", "card_games"])) :=
  C4_invalid_dataset_fails_before_io demoFs ["bogus_db", "card_games"] none none "bogus_db"
    (by decide) (by decide)

/-! Claim C10: query_datasource is total and its faults never reach the
orchestrator's exception branch. -/

/-- C10: for every runner outcome, query_datasource returns a complete result record
carrying the datasource, query and trace id; on the timeout and fault paths the
success flag is false and the error is set; consequently the per-case status computed
by run_single_test from such a returned record is never the exception-branch status
"error". -/
theorem C10_client_total_and_no_error_status
    (ds q tr : String) (outcome : RunnerOutcome) (tc : TestCase) :
    (query_datasource ds q tr outcome).datasource = ds ∧
    (query_datasource ds q tr outcome).query = q ∧
    (query_datasource ds q tr outcome).trace_id = tr ∧
    (outcome = RunnerOutcome.timeout →
      (query_datasource ds q tr outcome).success = false ∧
      (query_datasource ds q tr outcome).error = some TIMEOUT_MSG) ∧
    (∀ msg, outcome = RunnerOutcome.raised msg →
      (query_datasource ds q tr outcome).success = false ∧
      (query_datasource ds q tr outcome).error = some msg) ∧
    (run_single_test tc (Except.ok (query_datasource ds q tr outcome))).status ≠ "error" ∧
    (run_single_test tc (Except.ok (query_datasource ds q tr outcome))).mcp_result =
      some (query_datasource ds q tr outcome) := by
  cases outcome with
  | completed fo =>
      exact ⟨rfl, rfl, rfl, fun h => RunnerOutcome.noConfusion h,
        fun msg h => RunnerOutcome.noConfusion h,
        (by decide : ("success" : String) ≠ "error"), rfl⟩
  | timeout =>
      exact ⟨rfl, rfl, rfl, fun _ => ⟨rfl, rfl⟩,
        fun msg h => RunnerOutcome.noConfusion h,
        (by decide : ("failed" : String) ≠ "error"), rfl⟩
  | raised m =>
      refine ⟨rfl, rfl, rfl, fun h => RunnerOutcome.noConfusion h, ?_,
        (by decide : ("failed" : String) ≠ "error"), rfl⟩
      intro msg h
      injection h with h'
      subst h'
      exact ⟨rfl, rfl⟩

/-- Witness for C10 at the timeout outcome. -/
theorem C10_client_total_witness :
    (query_datasource "d" "q" "t" RunnerOutcome.timeout).success = false ∧
    (query_datasource "d" "q" "t" RunnerOutcome.timeout).error = some TIMEOUT_MSG ∧
    (run_single_test demoCaseA1
      (Except.ok (query_datasource "d" "q" "t" RunnerOutcome.timeout))).status ≠ "error" := by
  have H := C10_client_total_and_no_error_status "d" "q" "t" RunnerOutcome.timeout demoCaseA1
  exact ⟨(H.2.2.2.1 rfl).1, (H.2.2.2.1 rfl).2, H.2.2.2.2.2.1⟩

/-! Claim C3: on parse failure the code stores a "Parse error" message, not the raw
substring its own comment promises. -/

/-- C3 (failing input evaluated): on `BADJSON_OUTPUT` the extracted balanced substring
is `BADJSON_PAYLOAD`; parsing it fails, and the outcome's `vds_query` field holds the
string "Parse error: ..." rather than the raw unparsed substring, while the success
flag (hence the SUCCESS/FAILED status) is unaffected. -/
theorem C3_parse_failure_stores_message_not_raw :
    extract_vds_section BADJSON_OUTPUT.toList = some BADJSON_PAYLOAD.toList ∧
    (query_datasource "ds" "q" "tr" (RunnerOutcome.completed (some BADJSON_OUTPUT))).success =
      true ∧
    (query_datasource "ds" "q" "tr" (RunnerOutcome.completed (some BADJSON_OUTPUT))).vds_query =
      VdsQuery.text "Parse error: Expecting property name enclosed in double quotes" ∧
    (query_datasource "ds" "q" "tr" (RunnerOutcome.completed (some BADJSON_OUTPUT))).vds_query ≠
      VdsQuery.text BADJSON_PAYLOAD ∧
    (run_single_test demoCaseA1 (Except.ok (query_datasource "ds" "q" "tr"
      (RunnerOutcome.completed (some BADJSON_OUTPUT))))).status = "success" := by
  refine ⟨by decide, rfl, rfl, ?_, rfl⟩
  intro h
  have h2 : VdsQuery.text "Parse error: Expecting property name enclosed in double quotes" =
      VdsQuery.text BADJSON_PAYLOAD := h
  injection h2 with h3
  exact absurd h3 (by decide)

/-! Claim C6: the run log mirrors the filtered corpus. -/

/-- C6: every completed run produces exactly one outcome per test case, the log length
equals the corpus length, outcomes appear in corpus order (the logged test cases are
exactly the corpus, in order), and every dataset identifier in the log comes from the
corpus. -/
theorem C6_run_log_invariants (b : Nat → TestCase → RunnerOutcome) (t : Nat → String)
    (cases : List TestCase) :
    (run_evaluation b t cases).map (fun r => r.test_case) = cases ∧
    (run_evaluation b t cases).length = cases.length ∧
    ∀ r ∈ run_evaluation b t cases, r.test_case.db_id ∈ cases.map (fun tc => tc.db_id) := by
  have hmap : (run_evaluation b t cases).map (fun r => r.test_case) = cases :=
    run_cases_map_test_case b t cases 0
  refine ⟨hmap, ?_, ?_⟩
  · have hlen := congrArg List.length hmap
    simpa using hlen
  · intro r hr
    have hmem : r.test_case ∈ (run_evaluation b t cases).map (fun r => r.test_case) :=
      List.mem_map_of_mem _ hr
    rw [hmap] at hmem
    exact List.mem_map_of_mem _ hmem

/-- Witness for C6: a member of a concrete run log with its dataset id in the corpus. -/
theorem C6_run_log_witness :
    run_case RunnerOutcome.timeout "trace_demo" demoCaseA1 ∈
      run_evaluation demoTimeoutBehavior demoTraceOf [demoCaseA1] ∧
    (run_case RunnerOutcome.timeout "trace_demo" demoCaseA1).test_case.db_id ∈
      [demoCaseA1].map (fun tc => tc.db_id) := by
  have hmem : run_case RunnerOutcome.timeout "trace_demo" demoCaseA1 ∈
      run_evaluation demoTimeoutBehavior demoTraceOf [demoCaseA1] :=
    List.mem_singleton.mpr rfl
  exact ⟨hmem, (C6_run_log_invariants demoTimeoutBehavior demoTraceOf [demoCaseA1]).2.2 _ hmem⟩

/-! Claim C1 (corrected): a timed-out case is recorded as FAILED, not ERROR. -/

/-- Counterexample to C1 as stated: in a concrete run where the invocations time out,
the recorded status is "failed", which is not "error", and both cases still run. -/
theorem C1_counterexample :
    (run_evaluation demoTimeoutBehavior demoTraceOf [demoCaseA1, demoCaseB1]).map
        (fun r => r.status) = ["failed", "failed"] ∧
    ("failed" : String) ≠ "error" ∧
    (run_evaluation demoTimeoutBehavior demoTraceOf [demoCaseA1, demoCaseB1]).length = 2 :=
  ⟨rfl, by decide, rfl⟩

/-- C1 (amended): a case whose invocation exceeds the timeout is recorded with status
"failed" (not "error") and the timeout-specific error message, and the run still
produces an outcome for every case. -/
theorem C1_timeout_yields_failed_not_error
    (b : Nat → TestCase → RunnerOutcome) (t : Nat → String) (cases : List TestCase)
    (i : Nat) (tc : TestCase) (hcase : cases[i]? = some tc)
    (htimeout : b i tc = RunnerOutcome.timeout) :
    (run_evaluation b t cases).length = cases.length ∧
    ∃ r : TestResult, (run_evaluation b t cases)[i]? = some r ∧
      r.status = "failed" ∧ r.status ≠ "error" ∧ r.error = some TIMEOUT_MSG := by
  refine ⟨run_cases_length b t cases 0, ?_⟩
  have hg := run_cases_getElem b t cases i 0 tc hcase
  rw [Nat.zero_add] at hg
  refine ⟨run_case (b i tc) (t i) tc, hg, ?_, ?_, ?_⟩
  · rw [htimeout]; rfl
  · rw [htimeout]; exact (by decide : ("failed" : String) ≠ "error")
  · rw [htimeout]; rfl

/-- Witness for the amended C1 on a concrete run whose first case times out. -/
theorem C1_timeout_witness :
    (run_evaluation demoMixedBehavior demoTraceOf [demoCaseA1, demoCaseB1]).length = 2 ∧
    ∃ r : TestResult,
      (run_evaluation demoMixedBehavior demoTraceOf [demoCaseA1, demoCaseB1])[0]? = some r ∧
      r.status = "failed" ∧ r.status ≠ "error" ∧ r.error = some TIMEOUT_MSG :=
  C1_timeout_yields_failed_not_error demoMixedBehavior demoTraceOf [demoCaseA1, demoCaseB1] 0
    demoCaseA1 rfl rfl

/-! Claim C8: incremental persistence writes the current full log after every case. -/

/-- C8: with incremental persistence enabled, the k-th write to the latest-results file
is exactly the first k+1 outcomes of the final log, so after each case the file's
case count equals the number of cases processed so far. -/
theorem C8_incremental_saves (b : Nat → TestCase → RunnerOutcome) (t : Nat → String)
    (cases : List TestCase) :
    (run_with_saves b t 0 [] cases).1 = run_evaluation b t cases ∧
    (run_with_saves b t 0 [] cases).2.length = cases.length ∧
    ∀ k, k < cases.length →
      (run_with_saves b t 0 [] cases).2[k]? =
        some ((run_evaluation b t cases).take (k + 1)) ∧
      ((run_evaluation b t cases).take (k + 1)).length = k + 1 := by
  obtain ⟨h1, h2, h3⟩ := run_with_saves_spec b t cases 0 []
  refine ⟨by simpa using h1, h2, ?_⟩
  intro k hk
  refine ⟨by simpa using h3 k hk, ?_⟩
  show ((run_cases b t 0 cases).take (k + 1)).length = k + 1
  rw [List.length_take, run_cases_length b t cases 0]
  omega

/-- Witness for C8 on a concrete two-case run: the first write holds exactly one case. -/
theorem C8_incremental_saves_witness :
    (run_with_saves demoTimeoutBehavior demoTraceOf 0 [] [demoCaseA1, demoCaseB1]).2[0]? =
      some ((run_evaluation demoTimeoutBehavior demoTraceOf [demoCaseA1, demoCaseB1]).take 1) ∧
    ((run_evaluation demoTimeoutBehavior demoTraceOf [demoCaseA1, demoCaseB1]).take 1).length =
      1 :=
  (C8_incremental_saves demoTimeoutBehavior demoTraceOf [demoCaseA1, demoCaseB1]).2.2 0
    (by decide)

/-! Claim C7: summary arithmetic. -/

/-- The three status buckets partition any log whose statuses are among the three
values run_single_test can produce. -/
theorem three_status_partition :
    ∀ rs : List TestResult,
      (∀ r ∈ rs, r.status = "success" ∨ r.status = "failed" ∨ r.status = "error") →
      (rs.filter (fun r => decide (r.status = "success"))).length +
        (rs.filter (fun r => decide (r.status = "failed"))).length +
        (rs.filter (fun r => decide (r.status = "error"))).length = rs.length := by
  intro rs
  induction rs with
  | nil => intro _; rfl
  | cons r rest ih =>
      intro h
      have hr := h r (List.mem_cons_self r rest)
      have hrest := ih (fun x hx => h x (List.mem_cons_of_mem r hx))
      rcases hr with h1 | h1 | h1 <;>
        simp only [List.filter_cons, h1, List.length_cons] <;>
        simp <;>
        omega

/-- The total counter of a bucket update always grows by one. -/
theorem bump_db_total (st : DbStats) (status : String) :
    (bump_db st status).total = st.total + 1 := by
  simp only [bump_db]
  split_ifs <;> rfl

/-- Updating the per-database dictionary grows the sum of the totals by one. -/
theorem update_assoc_totals :
    ∀ (m : List (String × DbStats)) (db status : String),
      ((update_assoc m db status).map (fun p => p.2.total)).sum =
        ((m.map (fun p => p.2.total)).sum) + 1 := by
  intro m
  induction m with
  | nil =>
      intro db status
      simp [update_assoc, bump_db_total]
  | cons kv rest ih =>
      intro db status
      obtain ⟨k, v⟩ := kv
      simp only [update_assoc]
      by_cases hk : k = db
      · rw [if_pos hk]
        simp [bump_db_total]
        omega
      · rw [if_neg hk]
        simp [ih db status]
        omega

/-- The per-database totals of the folded dictionary sum to the log length. -/
theorem foldl_update_totals :
    ∀ (rs : List TestResult) (m : List (String × DbStats)),
      (((rs.foldl (fun m r => update_assoc m r.test_case.db_id r.status) m).map
        (fun p => p.2.total)).sum) = ((m.map (fun p => p.2.total)).sum) + rs.length := by
  intro rs
  induction rs with
  | nil => intro m; simp
  | cons r rest ih =>
      intro m
      simp only [List.foldl_cons, List.length_cons]
      rw [ih (update_assoc m r.test_case.db_id r.status), update_assoc_totals]
      omega

/-- C7: for every outcome log with the three program statuses, the summary satisfies
successful + failed + errors = total_tests; the success rate equals successful divided
by total_tests and is 0 when total_tests is 0; and the per-dataset totals of the
per-database breakdown sum to total_tests. -/
theorem C7_summary_arithmetic (results : List TestResult)
    (h : ∀ r ∈ results, r.status = "success" ∨ r.status = "failed" ∨ r.status = "error") :
    (generate_summary results).successful + (generate_summary results).failed +
        (generate_summary results).errors = (generate_summary results).total_tests ∧
    (generate_summary results).success_rate =
      ((generate_summary results).successful : Rat) /
        ((generate_summary results).total_tests : Rat) ∧
    ((generate_summary results).total_tests = 0 → (generate_summary results).success_rate = 0) ∧
    ((generate_summary results).by_database.map (fun p => p.2.total)).sum =
      (generate_summary results).total_tests := by
  refine ⟨three_status_partition results h, ?_, ?_, ?_⟩
  · simp only [generate_summary]
    by_cases hl : 0 < results.length
    · rw [if_pos hl]
    · rw [if_neg hl]
      have hnil : results = [] := List.length_eq_zero.mp (by omega)
      subst hnil
      simp
  · intro h0
    simp only [generate_summary] at h0 ⊢
    rw [if_neg (by omega)]
  · simp only [generate_summary]
    have := foldl_update_totals results []
    simpa using this

/-- Witness for C7 on a concrete three-entry log. -/
theorem C7_summary_witness :
    (generate_summary demoLog).successful + (generate_summary demoLog).failed +
        (generate_summary demoLog).errors = (generate_summary demoLog).total_tests ∧
    ((generate_summary demoLog).by_database.map (fun p => p.2.total)).sum =
      (generate_summary demoLog).total_tests :=
  ⟨(C7_summary_arithmetic demoLog (by decide)).1,
    (C7_summary_arithmetic demoLog (by decide)).2.2.2⟩

/-! Claims C5 and C9: semantics of the per-dataset limit. -/

/-- A successful load returns exactly the filtered records with the optional
per-database limit applied. -/
theorem load_ok_inv (fs : List (Option (List Item))) (ds : List String)
    (df : Option (List String)) (limit : Option Nat) (cases : List TestCase)
    (hne : ds ≠ []) (h : load_test_cases fs (some ds) df limit = Except.ok cases) :
    cases = applyLimitOpt ds limit (matchedCases fs ds df) := by
  have heff := effectiveDatabases_some ds hne
  simp only [load_test_cases, heff] at h
  by_cases h1 : invalid_requested ds ≠ []
  · rw [if_pos h1] at h
    exact Except.noConfusion h
  · rw [if_neg h1] at h
    by_cases h2 : matchedCases fs ds df = []
    · rw [if_pos h2] at h
      exact Except.noConfusion h
    · rw [if_neg h2] at h
      exact (Except.ok.inj h).symm

/-- A positive limit selects the truncation branch. -/
theorem applyLimitOpt_pos (ds : List String) (l : Nat) (matched : List TestCase)
    (hl : l ≠ 0) : applyLimitOpt ds (some l) matched = applyLimit ds l matched := by
  simp [applyLimitOpt, hl]

/-- Length of the truncated list: the sum over requested databases of the limited
per-database match counts. -/
theorem applyLimit_length (l : Nat) (matched : List TestCase) :
    ∀ ds : List String, (applyLimit ds l matched).length =
      (ds.map (fun d =>
        min l ((matched.filter (fun tc => decide (tc.db_id = d))).length))).sum := by
  intro ds
  induction ds with
  | nil => rfl
  | cons d rest ih =>
      simp [applyLimit, List.length_append, List.length_take, ih]

/-- Every element of the truncated list belongs to one of the requested databases. -/
theorem mem_applyLimit (l : Nat) (matched : List TestCase) :
    ∀ (ds : List String) (x : TestCase), x ∈ applyLimit ds l matched → x.db_id ∈ ds := by
  intro ds
  induction ds with
  | nil => intro x hx; exact absurd hx (List.not_mem_nil x)
  | cons d rest ih =>
      intro x hx
      rcases List.mem_append.mp hx with h1 | h1
      · have hx2 : x ∈ matched.filter (fun tc => decide (tc.db_id = d)) :=
          List.mem_of_mem_take h1
        have hx3 := List.of_mem_filter hx2
        simp only [decide_eq_true_eq] at hx3
        simp [hx3]
      · exact List.mem_cons_of_mem d (ih x h1)

/-- Restricted to one requested database, the truncated list is exactly the first `l`
matching records, in their original relative order. -/
theorem applyLimit_filter (l : Nat) (matched : List TestCase) :
    ∀ (ds : List String) (d : String), ds.Nodup → d ∈ ds →
      (applyLimit ds l matched).filter (fun tc => decide (tc.db_id = d)) =
        (matched.filter (fun tc => decide (tc.db_id = d))).take l := by
  intro ds
  induction ds with
  | nil => intro d _ hd; exact absurd hd (List.not_mem_nil d)
  | cons d0 rest ih =>
      intro d hnd hd
      have hnd' := List.nodup_cons.mp hnd
      simp only [applyLimit]
      rw [List.filter_append]
      rcases List.mem_cons.mp hd with rfl | hdrest
      · have hfirst : ((matched.filter (fun tc => decide (tc.db_id = d))).take l).filter
            (fun tc => decide (tc.db_id = d)) =
            (matched.filter (fun tc => decide (tc.db_id = d))).take l := by
          apply List.filter_eq_self.mpr
          intro a ha
          have ha2 : a ∈ matched.filter (fun tc => decide (tc.db_id = d)) :=
            List.mem_of_mem_take ha
          have ha3 := List.of_mem_filter ha2
          simpa using ha3
        have hrest0 : (applyLimit rest l matched).filter
            (fun tc => decide (tc.db_id = d)) = [] := by
          apply List.filter_eq_nil_iff.mpr
          intro a ha
          have hmem := mem_applyLimit l matched rest a ha
          simp only [decide_eq_true_eq]
          intro heq
          rw [heq] at hmem
          exact hnd'.1 hmem
        rw [hfirst, hrest0, List.append_nil]
      · have hne : d ≠ d0 := fun he => hnd'.1 (he ▸ hdrest)
        have hfirst : ((matched.filter (fun tc => decide (tc.db_id = d0))).take l).filter
            (fun tc => decide (tc.db_id = d)) = [] := by
          apply List.filter_eq_nil_iff.mpr
          intro a ha
          have ha2 : a ∈ matched.filter (fun tc => decide (tc.db_id = d0)) :=
            List.mem_of_mem_take ha
          have ha0 : a.db_id = d0 := by
            have := List.of_mem_filter ha2
            simpa using this
          simp only [decide_eq_true_eq]
          intro heq
          exact hne (heq ▸ ha0)
        rw [hfirst, List.nil_append]
        exact ih d hnd'.2 hdrest

/-- C5: for every valid non-empty duplicate-free dataset request, difficulty filter and
positive per-dataset limit, a successful load returns
Σ over requested d of min(limit, matching records of d) cases, and within each dataset
the returned cases are the first `limit` matching ones in original relative order. -/
theorem C5_limit_count_and_order (fs : List (Option (List Item))) (ds : List String)
    (df : Option (List String)) (l : Nat) (cases : List TestCase)
    (hne : ds ≠ []) (hnd : ds.Nodup) (hl : l ≠ 0)
    (h : load_test_cases fs (some ds) df (some l) = Except.ok cases) :
    cases.length = (ds.map (fun d =>
      min l ((matchedCases fs ds df).filter (fun tc => decide (tc.db_id = d))).length)).sum ∧
    ∀ d ∈ ds, cases.filter (fun tc => decide (tc.db_id = d)) =
      ((matchedCases fs ds df).filter (fun tc => decide (tc.db_id = d))).take l := by
  have hcases := load_ok_inv fs ds df (some l) cases hne h
  rw [applyLimitOpt_pos ds l _ hl] at hcases
  subst hcases
  refine ⟨applyLimit_length l _ ds, ?_⟩
  intro d hd
  exact applyLimit_filter l _ ds d hnd hd

/-- Witness for C5 at a concrete corpus, the simple-difficulty filter and limit 1. -/
theorem C5_limit_witness :
    ([demoCaseA1, demoCaseB1] : List TestCase).length =
      ((["california_schools", "card_games"] : List String).map (fun d => min 1
        ((matchedCases demoFs ["california_schools", "card_games"] (some ["simple"])).filter
          (fun tc => decide (tc.db_id = d))).length)).sum ∧
    ∀ d ∈ (["california_schools", "card_games"] : List String),
      ([demoCaseA1, demoCaseB1] : List TestCase).filter (fun tc => decide (tc.db_id = d)) =
        ((matchedCases demoFs ["california_schools", "card_games"] (some ["simple"])).filter
          (fun tc => decide (tc.db_id = d))).take 1 :=
  C5_limit_count_and_order demoFs ["california_schools", "card_games"] (some ["simple"]) 1
    [demoCaseA1, demoCaseB1] (by decide) (by decide) (by decide) (by rfl)

/-- C9: with a positive limit, load regroups the result per requested database in
request order (the truncation loop concatenates one per-database block per request);
with no limit the original global record order is kept; and on a concrete interleaved
corpus the two orders differ, so the original interleaving is not preserved. -/
theorem C9_limit_regrouping :
    (∀ (fs : List (Option (List Item))) (ds : List String) (df : Option (List String))
        (l : Nat) (cases : List TestCase), ds ≠ [] → l ≠ 0 →
        load_test_cases fs (some ds) df (some l) = Except.ok cases →
        cases = applyLimit ds l (matchedCases fs ds df)) ∧
    (∀ (fs : List (Option (List Item))) (ds : List String) (df : Option (List String))
        (cases : List TestCase), ds ≠ [] →
        load_test_cases fs (some ds) df none = Except.ok cases →
        cases = matchedCases fs ds df) ∧
    load_test_cases demoFs (some ["california_schools", "card_games"]) none (some 2) =
      Except.ok [demoCaseA1, demoCaseA2, demoCaseB1, demoCaseB2] ∧
    load_test_cases demoFs (some ["california_schools", "card_games"]) none none =
      Except.ok [demoCaseA1, demoCaseB1, demoCaseA2, demoCaseB2] ∧
    ([demoCaseA1, demoCaseA2, demoCaseB1, demoCaseB2] : List TestCase) ≠
      [demoCaseA1, demoCaseB1, demoCaseA2, demoCaseB2] := by
  refine ⟨?_, ?_, by rfl, by rfl, by decide⟩
  · intro fs ds df l cases hne hl h
    have hc := load_ok_inv fs ds df (some l) cases hne h
    rw [applyLimitOpt_pos ds l _ hl] at hc
    exact hc
  · intro fs ds df cases hne h
    exact load_ok_inv fs ds df none cases hne h

/-- Witness for C9 applying its with-limit description at the concrete corpus. -/
theorem C9_limit_regrouping_witness :
    ([demoCaseA1, demoCaseA2, demoCaseB1, demoCaseB2] : List TestCase) =
      applyLimit ["california_schools", "card_games"] 2
        (matchedCases demoFs ["california_schools", "card_games"] none) :=
  C9_limit_regrouping.1 demoFs ["california_schools", "card_games"] none 2
    [demoCaseA1, demoCaseA2, demoCaseB1, demoCaseB2] (by decide) (by decide) (by rfl)

/-! Claim C2: robustness of the depth-tracking payload extraction. -/

/-- Unfolding lemma for the depth contribution of one character. -/
theorem braceDepth_cons (c : Char) (s : List Char) :
    braceDepth (c :: s) =
      (if c = lbrace then 1 else if c = rbrace then -1 else 0) + braceDepth s := rfl

/-- Soundness of the brace scan: a returned end position marks a positive-length
prefix whose depth (offset by the running count) returns to zero, and — when the
running count is positive — no earlier prefix does. -/
theorem scanEndPos_sound :
    ∀ (s : List Char) (i : Nat) (d : Int) (e : Nat), scanEndPos s i d = some e →
      ∃ k, 0 < k ∧ k ≤ s.length ∧ e = i + k ∧ d + braceDepth (s.take k) = 0 ∧
        (0 < d → ∀ j, j < k → 0 < d + braceDepth (s.take j)) := by
  intro s
  induction s with
  | nil => intro i d e h; simp [scanEndPos] at h
  | cons c rest ih =>
      intro i d e h
      simp only [scanEndPos] at h
      by_cases hc : c = lbrace
      · rw [if_pos hc] at h
        obtain ⟨k, hk0, hkle, he, hdep, hmin⟩ := ih (i + 1) (d + 1) e h
        refine ⟨k + 1, by omega, by simp [List.length_cons]; omega, by omega, ?_, ?_⟩
        · rw [List.take_succ_cons, braceDepth_cons, if_pos hc]
          omega
        · intro hd j hj
          cases j with
          | zero => simpa [braceDepth] using hd
          | succ n =>
              have hn := hmin (by omega) n (by omega)
              rw [List.take_succ_cons, braceDepth_cons, if_pos hc]
              omega
      · rw [if_neg hc] at h
        by_cases hr : c = rbrace
        · rw [if_pos hr] at h
          by_cases hz : d - 1 = 0
          · rw [if_pos hz] at h
            have he : e = i + 1 := (Option.some.inj h).symm
            refine ⟨1, by omega, by simp, he, ?_, ?_⟩
            · have h1 : braceDepth ((c :: rest).take 1) = -1 := by
                rw [show (c :: rest).take 1 = [c] from rfl, braceDepth_cons, if_neg hc, if_pos hr]
                simp [braceDepth]
              rw [h1]
              omega
            · intro hd j hj
              have hj0 : j = 0 := by omega
              subst hj0
              simpa [braceDepth] using hd
          · rw [if_neg hz] at h
            obtain ⟨k, hk0, hkle, he, hdep, hmin⟩ := ih (i + 1) (d - 1) e h
            refine ⟨k + 1, by omega, by simp [List.length_cons]; omega, by omega, ?_, ?_⟩
            · rw [List.take_succ_cons, braceDepth_cons, if_neg hc, if_pos hr]
              omega
            · intro hd j hj
              cases j with
              | zero => simpa [braceDepth] using hd
              | succ n =>
                  have hn := hmin (by omega) n (by omega)
                  rw [List.take_succ_cons, braceDepth_cons, if_neg hc, if_pos hr]
                  omega
        · rw [if_neg hr] at h
          obtain ⟨k, hk0, hkle, he, hdep, hmin⟩ := ih (i + 1) d e h
          refine ⟨k + 1, by omega, by simp [List.length_cons]; omega, by omega, ?_, ?_⟩
          · rw [List.take_succ_cons, braceDepth_cons, if_neg hc, if_neg hr]
            omega
          · intro hd j hj
            cases j with
            | zero => simpa [braceDepth] using hd
            | succ n =>
                have hn := hmin hd n (by omega)
                rw [List.take_succ_cons, braceDepth_cons, if_neg hc, if_neg hr]
                omega

/-- Non-empty lists whose first optional element is the opening brace start with it. -/
theorem head_eq_lbrace (sec : List Char) (h : sec.head? = some lbrace) :
    ∃ rest, sec = lbrace :: rest := by
  cases sec with
  | nil => exact Option.noConfusion h
  | cons a r =>
      have ha : a = lbrace := Option.some.inj h
      exact ⟨r, by rw [ha]⟩

/-- Scan behaviour on a section that starts with the opening brace: the returned end
position is the first point at which the depth returns to zero. -/
theorem scanEndPos_top (sec rest : List Char) (e : Nat) (hsec : sec = lbrace :: rest)
    (hs : scanEndPos sec 0 0 = some e) :
    0 < e ∧ e ≤ sec.length ∧ braceDepth (sec.take e) = 0 ∧
      ∀ j, 0 < j → j < e → 0 < braceDepth (sec.take j) := by
  subst hsec
  have hs' : scanEndPos rest 1 1 = some e := by
    simpa [scanEndPos] using hs
  obtain ⟨k, hk0, hkle, he, hdep, hmin⟩ := scanEndPos_sound rest 1 1 e hs'
  subst he
  refine ⟨by omega, by simp [List.length_cons]; omega, ?_, ?_⟩
  · rw [show 1 + k = k + 1 by omega, List.take_succ_cons, braceDepth_cons, if_pos rfl]
    omega
  · intro j hj0 hje
    obtain ⟨n, rfl⟩ : ∃ n, j = n + 1 := ⟨j - 1, by omega⟩
    rw [List.take_succ_cons, braceDepth_cons, if_pos rfl]
    have hn := hmin (by omega) n (by omega)
    omega

/-- Unfolding of the extraction once the marker section is known. -/
theorem extract_eq_of_section (out sec : List Char) (h : vdsSection out = some sec) :
    extract_vds_section out =
      (if sec.head? = some lbrace then
        match scanEndPos sec 0 0 with
        | some e => some (sec.take e)
        | none => none
      else none) := by
  unfold extract_vds_section
  rw [h]

/-- C2: the extraction yields no payload when the marker is present but no opening
brace follows, and none when no prefix of the section balances; when it yields a
payload, that payload is the exact shortest balanced-brace prefix of the section
(depth returns to zero there and at no earlier point, so nested braces are matched to
the correct closing brace); and on a concrete nested-JSON answer it extracts exactly
the full balanced substring. -/
theorem C2_payload_extraction_robust :
    (∀ (out sec : List Char), vdsSection out = some sec → sec.head? ≠ some lbrace →
      extract_vds_section out = none) ∧
    (∀ (out sec : List Char), vdsSection out = some sec →
      (∀ k ∈ List.range (sec.length + 1), 0 < k → braceDepth (sec.take k) ≠ 0) →
      extract_vds_section out = none) ∧
    (∀ (out sub : List Char), extract_vds_section out = some sub →
      sub ≠ [] ∧ braceDepth sub = 0 ∧
      (∀ j, 0 < j → j < sub.length → braceDepth (sub.take j) ≠ 0) ∧
      ∃ sec, vdsSection out = some sec ∧ sub = sec.take sub.length) ∧
    extract_vds_section NESTED_OUTPUT.toList = some NESTED_PAYLOAD.toList := by
  refine ⟨?_, ?_, ?_, by decide⟩
  · intro out sec hsec hhead
    rw [extract_eq_of_section out sec hsec, if_neg hhead]
  · intro out sec hsec hunbal
    rw [extract_eq_of_section out sec hsec]
    by_cases hhead : sec.head? = some lbrace
    · rw [if_pos hhead]
      obtain ⟨rest, hrest⟩ := head_eq_lbrace sec hhead
      cases hscan : scanEndPos sec 0 0 with
      | none => rfl
      | some e =>
          exfalso
          obtain ⟨he0, hele, hdep, _⟩ := scanEndPos_top sec rest e hrest hscan
          exact hunbal e (List.mem_range.mpr (by omega)) he0 hdep
    · rw [if_neg hhead]
  · intro out sub hsub
    cases hsec : vdsSection out with
    | none =>
        rw [extract_vds_section, hsec] at hsub
        exact Option.noConfusion hsub
    | some sec =>
        rw [extract_eq_of_section out sec hsec] at hsub
        by_cases hhead : sec.head? = some lbrace
        · rw [if_pos hhead] at hsub
          obtain ⟨rest, hrest⟩ := head_eq_lbrace sec hhead
          cases hscan : scanEndPos sec 0 0 with
          | none => rw [hscan] at hsub; exact Option.noConfusion hsub
          | some e =>
              rw [hscan] at hsub
              have hsub' : sub = sec.take e := (Option.some.inj hsub).symm
              obtain ⟨he0, hele, hdep, hmin⟩ := scanEndPos_top sec rest e hrest hscan
              have hlen : sub.length = e := by
                rw [hsub', List.length_take]
                omega
              refine ⟨?_, ?_, ?_, ⟨sec, rfl, ?_⟩⟩
              · intro hnil
                rw [hnil] at hlen
                simp at hlen
                omega
              · rw [hsub']
                exact hdep
              · intro j hj0 hje
                rw [hlen] at hje
                rw [hsub', List.take_take, show min j e = j by omega]
                have := hmin j hj0 hje
                omega
              · rw [hlen]
                exact hsub'
        · rw [if_neg hhead] at hsub
          exact Option.noConfusion hsub

/-- Witness for C2: the marker-but-no-brace and unbalanced-brace branches at concrete
answer texts. -/
theorem C2_payload_extraction_witness :
    vdsSection NOBRACE_OUTPUT.toList = some (String.toList "none returned") ∧
    extract_vds_section NOBRACE_OUTPUT.toList = none ∧
    vdsSection UNBALANCED_OUTPUT.toList = some (String.toList "\x7b\"a\": 1 trailing") ∧
    extract_vds_section UNBALANCED_OUTPUT.toList = none := by
  refine ⟨by decide, ?_, by decide, ?_⟩
  · exact C2_payload_extraction_robust.1 NOBRACE_OUTPUT.toList (String.toList "none returned")
      (by decide) (by decide)
  · exact C2_payload_extraction_robust.2.1 UNBALANCED_OUTPUT.toList
      (String.toList "\x7b\"a\": 1 trailing") (by decide) (by decide)

end TableauMCP
